import Mathlib

/-
Verification of the bracket-aware matching library (modules `core.py` and
`smart.py` of re-extensions).

Strings are embedded as `List Char`.  Python functions that can raise are
embedded as `Except PyErr _`; Python `None` results are `Option.none`.
The external regular-expression engine (Python's `re`, an out-of-scope
collaborator per the spec) is modelled by a small deterministic engine
over the pattern shapes this library actually builds: literal pattern
text, a literal followed by a character-class lookahead `(?:X)(?=[S])`,
and an end-anchored literal `(?:X)\Z`.
-/

abbrev Str := List Char

/-- Python exception kinds that the embedded code can raise. -/
inductive PyErr where
  | valueError
  | indexError
  | attributeError
  | typeError
deriving DecidableEq, Repr

instance {ε α : Type} [DecidableEq ε] [DecidableEq α] : DecidableEq (Except ε α) :=
  fun a b =>
    match a, b with
    | .ok x, .ok y =>
      if h : x = y then isTrue (by rw [h]) else isFalse (fun hc => h (Except.ok.inj hc))
    | .error x, .error y =>
      if h : x = y then isTrue (by rw [h]) else isFalse (fun hc => h (Except.error.inj hc))
    | .ok _, .error _ => isFalse (fun hc => Except.noConfusion hc)
    | .error _, .ok _ => isFalse (fun hc => Except.noConfusion hc)

/-- Python string indexing `s[i]`: a negative index counts from the end;
an index out of range yields `none` (IndexError at the call site). -/
def pyIndex (s : Str) (i : Int) : Option Char :=
  if 0 ≤ i then s.get? i.toNat
  else if -i ≤ (s.length : Int) then s.get? (s.length - (-i).toNat) else none

/-- Index of the first occurrence of `sep` as a contiguous substring. -/
def findSubIdx (sep : Str) : Str → Option Nat
  | [] => if sep.isPrefixOf ([] : Str) then some 0 else none
  | c :: rest =>
    if sep.isPrefixOf (c :: rest) then some 0 else (findSubIdx sep rest).map (· + 1)

/-- Python `sep in s` (substring containment). -/
def pyIn (sep s : Str) : Bool := (findSubIdx sep s).isSome

/-- Worker for `pySplit` (fuel-driven; the fuel `s.length + 1` always suffices
because each step removes at least one character when `sep` is non-empty). -/
def pySplitGo (sep : Str) : Nat → Str → List Str
  | 0, s => [s]
  | fuel + 1, s =>
    match findSubIdx sep s with
    | none => [s]
    | some i => s.take i :: pySplitGo sep fuel (s.drop (i + sep.length))

/-- Python `s.split(sep)` for a non-empty separator. -/
def pySplit (sep s : Str) : List Str := pySplitGo sep (s.length + 1) s

/-- First component of Python `s.partition(sep)`: the text before the first
occurrence of `sep`, or all of `s` when `sep` does not occur. -/
def pyPartition0 (sep s : Str) : Str :=
  match findSubIdx sep s with
  | none => s
  | some i => s.take i

/-- Python slicing `s[::2]` (every second character starting at index 0). -/
def everyOther : Str → Str
  | [] => []
  | [c] => [c]
  | a :: _ :: rest => a :: everyOther rest

/-- Python `s.count("\n")`. -/
def countNl (s : Str) : Nat := s.count '\n'

/-- Python `s.rfind(c)`: index of the last occurrence, or -1. -/
def pyRFind (c : Char) (s : Str) : Int :=
  match findSubIdx [c] s.reverse with
  | none => -1
  | some i => (s.length : Int) - 1 - i

-- ==========================================================================
-- Bracket scanner (core.py, find_right_bracket / find_left_bracket)
-- ==========================================================================

/-- Forward scan of `find_right_bracket` (core.py lines 128-138): walks the
characters after the opening bracket with a depth counter, mirroring the
Python loop branch for branch.  `pos` is the absolute index of the current
character; the scan yields the index one past the matching right bracket,
or -1 when the string ends or (with `crossline` false) a newline is hit. -/
def frbGo (left right : Char) (crossline : Bool) : Str → Nat → Int → Int
  | [], _, _ => -1
  | c :: rest, pos, cnt =>
    if c = left then
      if cnt + 1 = 0 then (pos : Int) + 1 else frbGo left right crossline rest (pos + 1) (cnt + 1)
    else if c = right then
      if cnt - 1 = 0 then (pos : Int) + 1 else frbGo left right crossline rest (pos + 1) (cnt - 1)
    else if c = '\n' ∧ crossline = false then -1
    else if cnt = 0 then (pos : Int) + 1
    else frbGo left right crossline rest (pos + 1) cnt

/-- `find_right_bracket(string, start, crossline)` (core.py lines 95-138).
`string[start]` must be a left bracket, else ValueError; an out-of-range
`start` is an IndexError.  Returns the index one past the paired right
bracket, or -1 when not found. -/
def find_right_bracket (string : Str) (start : Nat) (crossline : Bool) : Except PyErr Int :=
  match string.get? start with
  | none => .error .indexError
  | some c =>
    if c = '(' then .ok (frbGo '(' ')' crossline (string.drop (start + 1)) (start + 1) 1)
    else if c = '[' then .ok (frbGo '[' ']' crossline (string.drop (start + 1)) (start + 1) 1)
    else if c = '{' then .ok (frbGo '{' '}' crossline (string.drop (start + 1)) (start + 1) 1)
    else .error .valueError

/-- Backward scan of `find_left_bracket` (core.py lines 174-184): the list
argument is the reversed prefix `string[0:start-1]` so that the structural
recursion walks positions `start-2, start-3, ..., 0`; `pos` is the absolute
index of the current character. -/
def flbGo (left right : Char) (crossline : Bool) : Str → Nat → Int → Int
  | [], _, _ => -1
  | c :: rest, pos, cnt =>
    if c = right then
      if cnt + 1 = 0 then (pos : Int) else flbGo left right crossline rest (pos - 1) (cnt + 1)
    else if c = left then
      if cnt - 1 = 0 then (pos : Int) else flbGo left right crossline rest (pos - 1) (cnt - 1)
    else if c = '\n' ∧ crossline = false then -1
    else if cnt = 0 then (pos : Int)
    else flbGo left right crossline rest (pos - 1) cnt

/-- `find_left_bracket(string, start, crossline)` (core.py lines 141-184).
`string[start-1]` must be a right bracket (Python indexing, so `start = 0`
reads the last character); returns the index of the paired left bracket,
or -1 when not found. -/
def find_left_bracket (string : Str) (start : Nat) (crossline : Bool) : Except PyErr Int :=
  match pyIndex string ((start : Int) - 1) with
  | none => .error .indexError
  | some c =>
    if c = ')' then .ok (flbGo '(' ')' crossline ((string.take (start - 1)).reverse) (start - 2) 1)
    else if c = ']' then .ok (flbGo '[' ']' crossline ((string.take (start - 1)).reverse) (start - 2) 1)
    else if c = '}' then .ok (flbGo '{' '}' crossline ((string.take (start - 1)).reverse) (start - 2) 1)
    else .error .valueError

/-- The right-bracket character paired with a left bracket. -/
def pairRight (c : Char) : Option Char :=
  if c = '(' then some ')'
  else if c = '[' then some ']'
  else if c = '{' then some '}'
  else none

-- ==========================================================================
-- Model of the external regex engine (out-of-scope collaborator, spec §1/§6)
-- ==========================================================================

/-- Pattern shapes the library hands to the external engine.  The library
only ever passes (a) pattern text used literally, (b) the f-string
`"(?:" + temp + ")(?=[" + left + "])"` built in `core.smart_match`
(a literal followed by a one-character lookahead into the set `left`),
and (c) the f-string `"(?:" + pattern + ")\Z"` built by the fullmatch
wrappers (an end-anchored literal).  These constructors represent those
three shapes; the engine flags are threaded by the callers but do not
affect literal matching. -/
inductive RePat where
  | lit : Str → RePat
  | litLookahead : Str → Str → RePat
  | litZ : Str → RePat
deriving DecidableEq

/-- Match object model: both `re.Match` and `SmartMatch` expose exactly
`span`, `group`, `groups`, `groupdict`, `start`, `end` to this library,
so a single structure stands for either (`SmartMatch`, core.py lines
337-401; smart.py lines 90-154). -/
structure SmartMatch where
  span : Nat × Nat
  group : Str
  groups : List (Option Str)
  groupdict : List (Str × Option Str)
deriving DecidableEq

/-- Shift a match's span by an absolute offset. -/
def shiftMatch (pos : Nat) (m : SmartMatch) : SmartMatch :=
  ⟨(pos + m.span.1, pos + m.span.2), m.group, m.groups, m.groupdict⟩

/-- Anchored `re.match` for the supported pattern shapes.  Literal text
matches as itself (no capture groups, hence empty `groups`/`groupdict`). -/
def reMatch (p : RePat) (s : Str) : Option SmartMatch :=
  match p with
  | .lit x => if x.isPrefixOf s then some ⟨(0, x.length), x, [], []⟩ else none
  | .litLookahead x cs =>
    if x.isPrefixOf s then
      match s.get? x.length with
      | some c => if cs.contains c then some ⟨(0, x.length), x, [], []⟩ else none
      | none => none
    else none
  | .litZ x => if x = s then some ⟨(0, s.length), s, [], []⟩ else none

/-- Unanchored scan for `re.search`: try an anchored match at each
successive start position, returning the leftmost hit with an absolute
span. -/
def reSearchAux (p : RePat) : Str → Nat → Option SmartMatch
  | [], pos => (reMatch p []).map (shiftMatch pos)
  | c :: rest, pos =>
    match reMatch p (c :: rest) with
    | some m => some (shiftMatch pos m)
    | none => reSearchAux p rest (pos + 1)

/-- `re.search` model. -/
def reSearch (p : RePat) (s : Str) : Option SmartMatch := reSearchAux p s 0

/-- `re.fullmatch` model. -/
def reFullmatch (p : RePat) (s : Str) : Option SmartMatch :=
  match reMatch p s with
  | some m => if m.span.2 = s.length then some m else none
  | none => none

/-- Worker for `re.finditer`: repeated search, advancing past each match
(one character for a zero-width match). -/
def reFinditerGo (p : RePat) : Nat → Str → Nat → List SmartMatch
  | 0, _, _ => []
  | fuel + 1, s, pos =>
    match reSearch p s with
    | none => []
    | some m =>
      let adv := if m.span.2 = m.span.1 then m.span.1 + 1 else m.span.2
      shiftMatch pos m :: reFinditerGo p fuel (s.drop adv) (pos + adv)

/-- `re.finditer` model. -/
def reFinditer (p : RePat) (s : Str) : List SmartMatch := reFinditerGo p (s.length + 1) s 0

/-- Replacement argument: a literal string or a callback on the match. -/
inductive Repl where
  | lit : Str → Repl
  | fn : (SmartMatch → Str) → Repl

/-- Apply a replacement to a match. -/
def applyRepl (r : Repl) (m : SmartMatch) : Str :=
  match r with
  | .lit t => t
  | .fn f => f m

/-- Worker for the `re.sub`/`re.subn` model. -/
def reSubGo (p : RePat) (r : Repl) : Nat → Str → Option Nat → Str → Nat → Str × Nat
  | 0, s, _, acc, done => (acc ++ s, done)
  | fuel + 1, s, remaining, acc, done =>
    if remaining = some 0 then (acc ++ s, done)
    else
      match reSearch p s with
      | none => (acc ++ s, done)
      | some m =>
        let acc2 := acc ++ s.take m.span.1 ++ applyRepl r m
        let remaining2 := remaining.map (· - 1)
        if m.span.2 = m.span.1 then
          reSubGo p r fuel (s.drop (m.span.2 + 1)) remaining2
            (acc2 ++ (s.drop m.span.2).take 1) (done + 1)
        else
          reSubGo p r fuel (s.drop m.span.2) remaining2 acc2 (done + 1)

/-- `re.subn` model (collaborator contract only; not exercised by claims). -/
def reSubn (p : RePat) (r : Repl) (s : Str) (count : Int) : Str × Nat :=
  if count < 0 then (s, 0)
  else if count = 0 then reSubGo p r (s.length + 1) s none [] 0
  else reSubGo p r (s.length + 1) s (some count.toNat) [] 0

/-- `re.sub` model. -/
def reSub (p : RePat) (r : Repl) (s : Str) (count : Int) : Str := (reSubn p r s count).1

-- ==========================================================================
-- Smart pattern / pattern polymorphism (core.py)
-- ==========================================================================

/-- `core.SmartPattern` (core.py lines 298-334): pattern text, flags, the
ignore bracket alphabet, and the placeholder marker, stored by `__init__`
under the attribute name `ignore_mark`. -/
structure SmartPattern where
  pattern : Str
  flags : Nat
  ignore : Str
  ignore_mark : Str
deriving DecidableEq

/-- `PatternType = Union[str, re.Pattern, SmartPattern]` (_typing.py).  A
`str` and a compiled `re.Pattern` are both delegated verbatim to the
external engine by every function below, so one `plain` variant stands
for both; `plain` carries the engine-pattern shape (see `RePat`). -/
inductive PatternType where
  | plain : RePat → PatternType
  | smart : SmartPattern → PatternType

/-- Python `dict.update`: merge the second association list into the first,
overwriting values of existing keys and appending new keys in order. -/
def dictUpdate (d1 d2 : List (Str × Option Str)) : List (Str × Option Str) :=
  d2.foldl
    (fun acc kv =>
      if acc.any (fun x => x.1 == kv.1) then
        acc.map (fun x => if x.1 == kv.1 then (x.1, kv.2) else x)
      else acc ++ [kv])
    d1

/-- re.DOTALL is the flag bit 16. -/
def reDOTALL : Nat := 16

/-- Mutable state of the segment loop in `core.smart_match` (core.py lines
476-491): `pos_now`, the pending probe `temp`, the absorbed text `substr`,
the remaining subject `string`, and the accumulated groups. -/
structure SegState where
  pos_now : Nat
  temp : Str
  substr : Str
  string : Str
  groups : List (Option Str)
  gdict : List (Str × Option Str)
deriving DecidableEq

/-- Segment loop of `core.smart_match` (core.py lines 478-491): for each
literal segment but the last, extend `temp`, probe with the lookahead
pattern `(?:temp)(?=[left])`; on a hit, absorb the balanced bracket span
found by `find_right_bracket` (failing the whole match when it reports
-1) and reset `temp`; then require `temp` to still match the remaining
subject.  `.ok none` is Python's `return None`. -/
def matchSegs (left : Str) (crossline : Bool) : List Str → SegState → Except PyErr (Option SegState)
  | [], st => .ok (some st)
  | s :: rest, st =>
    let temp := st.temp ++ s
    match reMatch (.litLookahead temp left) st.string with
    | some matched =>
      match find_right_bracket st.string matched.span.2 crossline with
      | .error e => .error e
      | .ok n =>
        if n < 0 then .ok none
        else
          let nn := n.toNat
          let st2 : SegState :=
            ⟨st.pos_now + nn, [], st.substr ++ st.string.take nn, st.string.drop nn,
              st.groups ++ matched.groups, dictUpdate st.gdict matched.groupdict⟩
          if (reMatch (.lit st2.temp) st2.string).isNone then .ok none
          else matchSegs left crossline rest st2
    | none =>
      let st2 : SegState := { st with temp := temp }
      if (reMatch (.lit st2.temp) st2.string).isNone then .ok none
      else matchSegs left crossline rest st2

/-- `core.smart_match` (core.py lines 448-498): plain patterns delegate to
the engine's anchored match; a smart pattern whose text has no marker
occurrence is matched literally; otherwise the segment loop runs and the
final probe `temp + splited[-1]` closes the match, yielding a
`SmartMatch` with span `(0, pos_now + end)`. -/
def smart_match (pattern : PatternType) (string : Str) (flags : Nat) : Except PyErr (Option SmartMatch) :=
  match pattern with
  | .plain p => .ok (reMatch p string)
  | .smart pat =>
    let p := pat.pattern
    let f := pat.flags ||| flags
    let splited := pySplit pat.ignore_mark p
    if splited.length = 1 then .ok (reMatch (.lit p) string)
    else
      let crossline := decide (0 < f &&& reDOTALL)
      let left := everyOther pat.ignore
      match matchSegs left crossline splited.dropLast ⟨0, [], [], string, [], []⟩ with
      | .error e => .error e
      | .ok none => .ok none
      | .ok (some st) =>
        match reMatch (.lit (st.temp ++ splited.getLastD [])) st.string with
        | some matched =>
          .ok (some ⟨(0, st.pos_now + matched.span.2), st.substr ++ matched.group,
            st.groups ++ matched.groups, dictUpdate st.gdict matched.groupdict⟩)
        | none => .ok none

/-- Scan loop of `core.smart_search` (core.py lines 432-445): while the
subject is non-empty and the probe (the literal prefix before the first
marker) is found, try `smart_match` at the probe's position; on failure
advance one character past that position and retry. -/
def searchGo (pat : SmartPattern) (to_search : Str) (flags : Nat) :
    Nat → Str → Nat → Except PyErr (Option SmartMatch)
  | 0, _, _ => .ok none
  | fuel + 1, s, pos_now =>
    if s = [] then .ok none
    else
      match reSearch (.lit to_search) s with
      | none => .ok none
      | some srch => do
        let pos2 := pos_now + srch.span.1
        let s2 := s.drop srch.span.1
        match ← smart_match (.smart pat) s2 flags with
        | some m =>
          .ok (some ⟨(pos2, pos2 + m.span.2), m.group, m.groups, m.groupdict⟩)
        | none => searchGo pat to_search flags fuel (s2.drop 1) (pos2 + 1)

/-- `core.smart_search` (core.py lines 404-445). -/
def smart_search (pattern : PatternType) (string : Str) (flags : Nat) : Except PyErr (Option SmartMatch) :=
  match pattern with
  | .plain p => .ok (reSearch p string)
  | .smart pat =>
    let p := pat.pattern
    if pyIn pat.ignore_mark p = false then .ok (reSearch (.lit p) string)
    else
      let to_search := pyPartition0 pat.ignore_mark p
      searchGo pat to_search flags (string.length + 1) string 0

/-- `core.smart_fullmatch` (core.py lines 501-525): for a smart pattern the
source calls `smart_match(f"(?:{pattern.pattern})\Z", string, ...)` — the
first argument is a plain *string*, so `smart_match` delegates it to the
engine's anchored match of the end-anchored literal. -/
def smart_fullmatch (pattern : PatternType) (string : Str) (flags : Nat) : Except PyErr (Option SmartMatch) :=
  match pattern with
  | .plain p => .ok (reFullmatch p string)
  | .smart pat => smart_match (.plain (.litZ pat.pattern)) string (pat.flags ||| flags)

/-- `core.smart_finditer` (core.py lines 528-552): the body consists only of
the isinstance branch returning `re.finditer`; for a `SmartPattern` the
function falls off the end and returns Python `None` (modelled `none`). -/
def smart_finditer (pattern : PatternType) (string : Str) (_flags : Nat) : Option (List SmartMatch) :=
  match pattern with
  | .plain p => some (reFinditer p string)
  | .smart _ => none

/-- Scan loop of `core.smart_findall` (core.py lines 579-585). -/
def findallGo (pat : SmartPattern) (flags : Nat) : Nat → Str → Except PyErr (List Str)
  | 0, _ => .ok []
  | fuel + 1, s => do
    match ← smart_search (.smart pat) s flags with
    | none => .ok []
    | some m =>
      if s = [] then .ok [m.group]
      else do
        let rest ← findallGo pat flags fuel (s.drop (if m.span.2 = 0 then 1 else m.span.2))
        .ok (m.group :: rest)

/-- `core.smart_findall` (core.py lines 555-585). -/
def smart_findall (pattern : PatternType) (string : Str) (flags : Nat) : Except PyErr (List Str) :=
  match pattern with
  | .plain p => .ok ((reFinditer p string).map (·.group))
  | .smart pat => findallGo pat flags (string.length + 1) string

/-- Scan loop of `core.smart_sub` (core.py lines 626-637): append the
unmatched prefix and the replacement; break when the subject is empty or
the decremented count reaches 0 (returning `new_string + string` with the
subject *not yet advanced past the match*); otherwise advance one
character past a zero-width match or past the match's end. -/
def subGo (pat : SmartPattern) (repl : Repl) (flags : Nat) :
    Nat → Str → Int → Str → Except PyErr Str
  | 0, s, _, acc => .ok (acc ++ s)
  | fuel + 1, s, count, acc => do
    match ← smart_search (.smart pat) s flags with
    | none => .ok (acc ++ s)
    | some m =>
      let acc2 := acc ++ s.take m.span.1 ++ applyRepl repl m
      if s = [] ∨ count - 1 = 0 then .ok (acc2 ++ s)
      else if m.span.2 = 0 then subGo pat repl flags fuel (s.drop 1) (count - 1) (acc2 ++ s.take 1)
      else subGo pat repl flags fuel (s.drop m.span.2) (count - 1) acc2

/-- `core.smart_sub` (core.py lines 588-637). -/
def smart_sub (pattern : PatternType) (repl : Repl) (string : Str) (count : Int) (flags : Nat) :
    Except PyErr Str :=
  match pattern with
  | .plain p => .ok (reSub p repl string count)
  | .smart pat =>
    if count < 0 then .ok string
    else subGo pat repl flags (string.length + 1) string count []

/-- Scan loop of `core.smart_subn` (core.py lines 680-692): like `subGo`
but the counter `tmpcnt` is decremented *before* the emptiness test and
the pair returned carries `count - tmpcnt` substitutions. -/
def subnGo (pat : SmartPattern) (repl : Repl) (flags : Nat) (count : Int) :
    Nat → Str → Int → Str → Except PyErr (Str × Int)
  | 0, s, tmpcnt, acc => .ok (acc ++ s, count - tmpcnt)
  | fuel + 1, s, tmpcnt, acc => do
    match ← smart_search (.smart pat) s flags with
    | none => .ok (acc ++ s, count - tmpcnt)
    | some m =>
      let acc2 := acc ++ s.take m.span.1 ++ applyRepl repl m
      let tmpcnt2 := tmpcnt - 1
      if tmpcnt2 = 0 ∨ s = [] then .ok (acc2 ++ s, count - tmpcnt2)
      else if m.span.2 = 0 then subnGo pat repl flags count fuel (s.drop 1) tmpcnt2 (acc2 ++ s.take 1)
      else subnGo pat repl flags count fuel (s.drop m.span.2) tmpcnt2 acc2

/-- `core.smart_subn` (core.py lines 640-692). -/
def smart_subn (pattern : PatternType) (repl : Repl) (string : Str) (count : Int) (flags : Nat) :
    Except PyErr (Str × Int) :=
  match pattern with
  | .plain p => .ok (let r := reSubn p repl string count; (r.1, (r.2 : Int)))
  | .smart pat =>
    if count < 0 then .ok (string, 0)
    else subnGo pat repl flags count (string.length + 1) string count []

/-- `splits[-1] += t` on a Python list known to be non-empty. -/
def appendLast (xs : List Str) (t : Str) : List Str :=
  match xs with
  | [] => [t]
  | _ => xs.dropLast ++ [xs.getLastD [] ++ t]

/-- Scan loop of `core.rsplit` (core.py lines 782-802), including the
`while ... else` clause: when the loop condition fails with a pending
match but an empty subject, `splits[-1] += stored` and a trailing empty
segment is appended; a `break` on exhausted `maxsplit` falls through to
`splits[-1] += stored + string`. -/
def rsplitGo (pattern : PatternType) (flags : Nat) :
    Nat → Option SmartMatch → Str → Int → List Str → Str → Except PyErr (List Str)
  | 0, _, s, _, splits, stored => .ok (appendLast splits (stored ++ s))
  | fuel + 1, searched, s, maxsplit, splits, stored =>
    match searched with
    | none => .ok (appendLast splits (stored ++ s))
    | some m =>
      if s = [] then .ok (appendLast splits stored ++ [[]])
      else
        let step :=
          if m.span.2 = 0 then (appendLast splits stored, s.take 1, s.drop 1)
          else (appendLast splits (stored ++ s.take m.span.1), ([] : Str), s.drop m.span.2)
        let splits2 := step.1 ++ [m.group]
        let stored2 := step.2.1
        let s2 := step.2.2
        if maxsplit - 1 = 0 then .ok (appendLast splits2 (stored2 ++ s2))
        else do
          let searched2 ← smart_search pattern s2 flags
          rsplitGo pattern flags fuel searched2 s2 (maxsplit - 1) splits2 stored2

/-- `core.rsplit` (core.py lines 749-802): split keeping each matched
delimiter attached to the segment on its right. -/
def rsplit (pattern : PatternType) (string : Str) (maxsplit : Int) (flags : Nat) :
    Except PyErr (List Str) := do
  if maxsplit < 0 then .ok [string]
  else
    match ← smart_search pattern string flags with
    | none => .ok [string]
    | some searched =>
      rsplitGo pattern flags (string.length + 1) (some searched) string maxsplit [[]] []

/-- Scan loop of `core.lsplit` (core.py lines 839-858). -/
def lsplitGo (pattern : PatternType) (flags : Nat) :
    Nat → Option SmartMatch → Str → Int → List Str → Str → Except PyErr (List Str)
  | 0, _, s, _, splits, stored => .ok (splits ++ [stored ++ s])
  | fuel + 1, searched, s, maxsplit, splits, stored =>
    match searched with
    | none => .ok (splits ++ [stored ++ s])
    | some m =>
      if s = [] then .ok (splits ++ [stored] ++ [[]])
      else
        let step :=
          if m.span.2 = 0 then (splits ++ [stored], s.take 1, s.drop 1)
          else (splits ++ [stored ++ s.take m.span.2], ([] : Str), s.drop m.span.2)
        let splits2 := step.1
        let stored2 := step.2.1
        let s2 := step.2.2
        if maxsplit - 1 = 0 then .ok (splits2 ++ [stored2 ++ s2])
        else do
          let searched2 ← smart_search pattern s2 flags
          lsplitGo pattern flags fuel searched2 s2 (maxsplit - 1) splits2 stored2

/-- `core.lsplit` (core.py lines 805-858): split keeping each matched
delimiter attached to the segment on its left; note the initial
`stored = string[: searched.start()]` at line 838. -/
def lsplit (pattern : PatternType) (string : Str) (maxsplit : Int) (flags : Nat) :
    Except PyErr (List Str) := do
  if maxsplit < 0 then .ok [string]
  else
    match ← smart_search pattern string flags with
    | none => .ok [string]
    | some searched =>
      lsplitGo pattern flags (string.length + 1) (some searched) string maxsplit []
        (string.take searched.span.1)

-- ==========================================================================
-- real_findall (core.py lines 909-988)
-- ==========================================================================

/-- A `real_findall` result element: a bare match in absolute mode, or a
`(line number, match)` pair in line mode. -/
inductive RFElem where
  | abs : SmartMatch → RFElem
  | line : Nat → SmartMatch → RFElem
deriving DecidableEq

/-- The two-argument `SmartMatch(span, group)` calls made by
`core.real_findall` (core.py lines 968-971 and 979).  `SmartMatch.__init__`
(core.py lines 353-359) declares four required parameters `span`, `group`,
`groups`, `groupdict`; calling it with only two raises TypeError. -/
def SmartMatch.mk2 (_span : Nat × Nat) (_group : Str) : Except PyErr SmartMatch :=
  .error .typeError

/-- Scan loop of `core.real_findall` (core.py lines 959-988), carrying the
running line number, absolute position and in-line position exactly as the
source does; every match reaches a two-argument `SmartMatch` construction
(`SmartMatch.mk2`), whose TypeError propagates. -/
def realFindallGo (pattern : PatternType) (flags : Nat) (linemode : Bool) :
    Nat → Str → Nat → Nat → Nat → List RFElem → Except PyErr (List RFElem)
  | 0, _, _, _, _, finds => .ok finds
  | fuel + 1, s, nline, total_pos, line_pos, finds => do
    match ← smart_search pattern s flags with
    | none => .ok finds
    | some m =>
      let span := m.span
      let group := m.group
      if linemode then do
        let left := s.take span.1
        let lc_left := countNl left
        let nline2 := nline + lc_left
        let line_pos2 := if 0 < lc_left then 0 else line_pos
        let lastline_pos := (((left.length : Int) - 1 - pyRFind '\n' left)).toNat
        let matched ← SmartMatch.mk2
          (line_pos2 + lastline_pos, line_pos2 + lastline_pos + span.2 - span.1) group
        let finds2 := finds ++ [RFElem.line nline2 matched]
        let nline3 := nline2 + countNl group
        let line_pos3 :=
          if pyIn ['\n'] group then group.length - 1 - (pyRFind '\n' group).toNat
          else line_pos2 + max (lastline_pos + span.2 - span.1) 1
        if s = [] then .ok finds2
        else if span.2 = 0 then
          realFindallGo pattern flags linemode fuel (s.drop 1)
            (nline3 + (if s.take 1 = ['\n'] then 1 else 0)) total_pos line_pos3 finds2
        else
          realFindallGo pattern flags linemode fuel (s.drop span.2) nline3 total_pos line_pos3 finds2
      else do
        let matched ← SmartMatch.mk2 (span.1 + total_pos, span.2 + total_pos) group
        let finds2 := finds ++ [RFElem.abs matched]
        let total_pos2 := total_pos + max span.2 1
        if s = [] then .ok finds2
        else if span.2 = 0 then
          realFindallGo pattern flags linemode fuel (s.drop 1)
            (nline + (if s.take 1 = ['\n'] then 1 else 0)) total_pos2 line_pos finds2
        else
          realFindallGo pattern flags linemode fuel (s.drop span.2) nline total_pos2 line_pos finds2

/-- `core.real_findall` (core.py lines 909-988). -/
def real_findall (pattern : PatternType) (string : Str) (flags : Nat) (linemode : Bool) :
    Except PyErr (List RFElem) :=
  realFindallGo pattern flags linemode (string.length + 1) string 1 0 0 []

-- ==========================================================================
-- smart.py: the parallel module, with its own SmartPattern class
-- ==========================================================================

namespace Smart

/-- `smart.SmartPattern` (smart.py lines 40-87): `__init__` stores exactly
the attributes `pattern`, `flags`, `ignore` and `mark` (line 87:
`self.ignore, self.mark = ignore, mark`). -/
structure SmartPattern where
  pattern : Str
  flags : Nat
  ignore : Str
  mark : Str
deriving DecidableEq

/-- Attribute lookup on a `smart.SmartPattern` instance for its string
attributes: only `pattern`, `ignore` and `mark` exist (besides the integer
`flags`); any other name — in particular `ignore_mark`, which the functions
of smart.py read — is an AttributeError, modelled as `none`. -/
def SmartPattern.getStrAttr (p : SmartPattern) (name : String) : Option Str :=
  if name = ("pattern" : String) then some p.pattern
  else if name = ("ignore" : String) then some p.ignore
  else if name = ("mark" : String) then some p.mark
  else none

/-- Segment loop of `smart.match` (smart.py lines 231-244): probe with the
plain accumulated literal; on success, if the character right after the
probe is a left bracket of the ignore alphabet, absorb the balanced span
found by `find_right_bracket` and reset `temp`. -/
def matchSegs (left : Str) (crossline : Bool) : List Str → SegState → Except PyErr (Option SegState)
  | [], st => .ok (some st)
  | s :: rest, st =>
    let temp := st.temp ++ s
    match reMatch (.lit temp) st.string with
    | none => .ok none
    | some matched =>
      if matched.span.2 < st.string.length ∧
          (match st.string.get? matched.span.2 with
            | some c => left.contains c
            | none => false) = true then
        match find_right_bracket st.string matched.span.2 crossline with
        | .error e => .error e
        | .ok n =>
          if n < 0 then .ok none
          else
            let nn := n.toNat
            let st2 : SegState :=
              ⟨st.pos_now + nn, [], st.substr ++ st.string.take nn, st.string.drop nn,
                st.groups ++ matched.groups, dictUpdate st.gdict matched.groupdict⟩
            matchSegs left crossline rest st2
      else matchSegs left crossline rest { st with temp := temp }

/-- `smart.match` (smart.py lines 204-251).  Line 227 reads
`pattern.ignore_mark`, an attribute `smart.SmartPattern.__init__` never
sets, so for its own module's pattern class this raises AttributeError
before any matching happens. -/
def match_ (pattern : SmartPattern) (string : Str) (flags : Nat) : Except PyErr (Option SmartMatch) :=
  match pattern.getStrAttr ("ignore_mark") with
  | none => .error .attributeError
  | some im =>
    let p := pattern.pattern
    let f := pattern.flags ||| flags
    let splited := pySplit im p
    if splited.length = 1 then .ok (reMatch (.lit p) string)
    else
      let crossline := decide (0 < f &&& reDOTALL)
      let left := everyOther pattern.ignore
      match matchSegs left crossline splited.dropLast ⟨0, [], [], string, [], []⟩ with
      | .error e => .error e
      | .ok none => .ok none
      | .ok (some st) =>
        match reMatch (.lit (st.temp ++ splited.getLastD [])) st.string with
        | some matched =>
          .ok (some ⟨(0, st.pos_now + matched.span.2), st.substr ++ matched.group,
            st.groups ++ matched.groups, dictUpdate st.gdict matched.groupdict⟩)
        | none => .ok none

/-- Scan loop of `smart.search` (smart.py lines 189-201). -/
def searchGo (pat : SmartPattern) (to_search : Str) (flags : Nat) :
    Nat → Str → Nat → Except PyErr (Option SmartMatch)
  | 0, _, _ => .ok none
  | fuel + 1, s, pos_now =>
    if s = [] then .ok none
    else
      match reSearch (.lit to_search) s with
      | none => .ok none
      | some srch => do
        let pos2 := pos_now + srch.span.1
        let s2 := s.drop srch.span.1
        match ← match_ pat s2 flags with
        | some m =>
          .ok (some ⟨(pos2, pos2 + m.span.2), m.group, m.groups, m.groupdict⟩)
        | none => searchGo pat to_search flags fuel (s2.drop 1) (pos2 + 1)

/-- `smart.search` (smart.py lines 162-201).  Line 185 reads
`pattern.ignore_mark`; for a `smart.SmartPattern` argument this raises
AttributeError (the class stores the marker under `mark`). -/
def search (pattern : SmartPattern) (string : Str) (flags : Nat) : Except PyErr (Option SmartMatch) :=
  match pattern.getStrAttr ("ignore_mark") with
  | none => .error .attributeError
  | some im =>
    let p := pattern.pattern
    if pyIn im p = false then .ok (reSearch (.lit p) string)
    else
      let to_search := pyPartition0 im p
      searchGo pattern to_search flags (string.length + 1) string 0

end Smart

-- ==========================================================================
-- Concrete patterns used by the claims
-- ==========================================================================

/-- SmartPattern("a{}b") with the default ignore alphabet "()[]{}" and
marker "{}". -/
def pat_ab : SmartPattern :=
  ⟨("a\x7b\x7db".toList), 0, ("()[]\x7b\x7d".toList), ("\x7b\x7d".toList)⟩

/-- SmartPattern("a{}b") with ignore alphabet "()" only. -/
def pat_ab_paren : SmartPattern :=
  ⟨("a\x7b\x7db".toList), 0, ("()".toList), ("\x7b\x7d".toList)⟩

/-- SmartPattern("{}"): the pattern text is just the marker, so every
literal segment is empty. -/
def pat_mark : SmartPattern :=
  ⟨("\x7b\x7d".toList), 0, ("()[]\x7b\x7d".toList), ("\x7b\x7d".toList)⟩

/-- smart.SmartPattern("a{}b") with the defaults of smart.py. -/
def spat_ab : Smart.SmartPattern :=
  ⟨("a\x7b\x7db".toList), 0, ("()[]\x7b\x7d".toList), ("\x7b\x7d".toList)⟩

-- ==========================================================================
-- Proof helpers: bracket-depth accounting
-- ==========================================================================

/-- Signed count of `l`-characters minus `r`-characters. -/
def bal (l r : Char) : Str → Int
  | [] => 0
  | c :: cs => (if c = l then (1 : Int) else if c = r then -1 else 0) + bal l r cs

lemma bal_append (l r : Char) (a b : Str) : bal l r (a ++ b) = bal l r a + bal l r b := by
  induction a with
  | nil => simp [bal]
  | cons c cs ih =>
    show (if c = l then (1 : Int) else if c = r then -1 else 0) + bal l r (cs ++ b)
      = ((if c = l then (1 : Int) else if c = r then -1 else 0) + bal l r cs) + bal l r b
    rw [ih]
    ring

lemma bal_reverse (l r : Char) (a : Str) : bal l r a.reverse = bal l r a := by
  induction a with
  | nil => rfl
  | cons c cs ih =>
    rw [List.reverse_cons, bal_append, ih]
    show bal l r cs + ((if c = l then (1 : Int) else if c = r then -1 else 0) + bal l r [])
      = (if c = l then (1 : Int) else if c = r then -1 else 0) + bal l r cs
    show bal l r cs + ((if c = l then (1 : Int) else if c = r then -1 else 0) + 0)
      = (if c = l then (1 : Int) else if c = r then -1 else 0) + bal l r cs
    ring

lemma bal_swap (l r : Char) (hlr : l ≠ r) (a : Str) : bal r l a = -bal l r a := by
  induction a with
  | nil => simp [bal]
  | cons c cs ih =>
    show (if c = r then (1 : Int) else if c = l then -1 else 0) + bal r l cs
      = -((if c = l then (1 : Int) else if c = r then -1 else 0) + bal l r cs)
    rcases eq_or_ne c l with h1 | h1
    · have hcr : ¬(c = r) := fun hh => hlr (by rw [← h1, hh])
      rw [if_neg hcr, if_pos h1, if_pos h1, ih]
      ring
    · rcases eq_or_ne c r with h2 | h2
      · rw [if_pos h2, if_neg h1, if_pos h2, ih]
        ring
      · rw [if_neg h2, if_neg h1, if_neg h1, if_neg h2, ih]
        ring

/-- Success characterization of the forward bracket scan: a non-negative
result splits the scanned text as `w ++ r :: rest` where the depth first
returns to zero at that `r`, every prefix of `w` keeps the depth positive,
and (without `crossline`) no newline occurs before the close. -/
lemma frbGo_ok (l r : Char) (hl : l ≠ '\n') (hr : r ≠ '\n') (cl : Bool) :
    ∀ (u : Str) (pos : Nat) (cnt : Int), 1 ≤ cnt → 0 ≤ frbGo l r cl u pos cnt →
    ∃ w rest, u = w ++ r :: rest
      ∧ frbGo l r cl u pos cnt = (pos : Int) + w.length + 1
      ∧ cnt + bal l r w = 1
      ∧ (∀ w1 w2, w = w1 ++ w2 → 1 ≤ cnt + bal l r w1)
      ∧ (cl = false → '\n' ∉ w) := by
  intro u
  induction u with
  | nil =>
    intro pos cnt _ h0
    rw [show frbGo l r cl [] pos cnt = -1 from rfl] at h0
    omega
  | cons c u ih =>
    intro pos cnt hcnt h0
    by_cases hc1 : c = l
    · have hne : ¬(cnt + 1 = 0) := by omega
      have e1 : frbGo l r cl (c :: u) pos cnt = frbGo l r cl u (pos + 1) (cnt + 1) := by
        simp only [frbGo]
        rw [if_pos hc1, if_neg hne]
      rw [e1] at h0
      obtain ⟨w, rest, hu, hval, hbal, hpref, hnl⟩ := ih (pos + 1) (cnt + 1) (by omega) h0
      refine ⟨c :: w, rest, by rw [hu]; rfl, ?_, ?_, ?_, ?_⟩
      · rw [e1, hval]
        simp only [List.length_cons]
        push_cast
        ring
      · show cnt + ((if c = l then (1 : Int) else if c = r then -1 else 0) + bal l r w) = 1
        rw [if_pos hc1]
        omega
      · intro w1 w2 h12
        cases w1 with
        | nil =>
          show 1 ≤ cnt + bal l r []
          rw [show bal l r [] = 0 from rfl]
          omega
        | cons c1 w1' =>
          rw [List.cons_append] at h12
          injection h12 with hch hw
          have hp := hpref w1' w2 hw
          show 1 ≤ cnt + ((if c1 = l then (1 : Int) else if c1 = r then -1 else 0) + bal l r w1')
          rw [← hch, if_pos hc1]
          omega
      · intro hclf
        simp only [List.mem_cons, not_or]
        exact ⟨fun hh => hl (by rw [← hc1, ← hh]), hnl hclf⟩
    · by_cases hc2 : c = r
      · by_cases hz : cnt - 1 = 0
        · have e1 : frbGo l r cl (c :: u) pos cnt = (pos : Int) + 1 := by
            simp only [frbGo]
            rw [if_neg hc1, if_pos hc2, if_pos hz]
          refine ⟨[], u, by rw [hc2]; rfl, ?_, ?_, ?_, by simp⟩
          · rw [e1]
            simp
          · rw [show bal l r [] = 0 from rfl]
            omega
          · intro w1 w2 h12
            have hw1 : w1 = [] := by
              cases w1 with
              | nil => rfl
              | cons a b => exact absurd h12 (by simp)
            rw [hw1, show bal l r [] = 0 from rfl]
            omega
        · have e1 : frbGo l r cl (c :: u) pos cnt = frbGo l r cl u (pos + 1) (cnt - 1) := by
            simp only [frbGo]
            rw [if_neg hc1, if_pos hc2, if_neg hz]
          rw [e1] at h0
          obtain ⟨w, rest, hu, hval, hbal, hpref, hnl⟩ := ih (pos + 1) (cnt - 1) (by omega) h0
          refine ⟨c :: w, rest, by rw [hu]; rfl, ?_, ?_, ?_, ?_⟩
          · rw [e1, hval]
            simp only [List.length_cons]
            push_cast
            ring
          · show cnt + ((if c = l then (1 : Int) else if c = r then -1 else 0) + bal l r w) = 1
            rw [if_neg hc1, if_pos hc2]
            omega
          · intro w1 w2 h12
            cases w1 with
            | nil =>
              show 1 ≤ cnt + bal l r []
              rw [show bal l r [] = 0 from rfl]
              omega
            | cons c1 w1' =>
              rw [List.cons_append] at h12
              injection h12 with hch hw
              have hp := hpref w1' w2 hw
              show 1 ≤ cnt + ((if c1 = l then (1 : Int) else if c1 = r then -1 else 0) + bal l r w1')
              rw [← hch, if_neg hc1, if_pos hc2]
              omega
          · intro hclf
            simp only [List.mem_cons, not_or]
            exact ⟨fun hh => hr (by rw [← hc2, ← hh]), hnl hclf⟩
      · by_cases hc3 : c = '\n' ∧ cl = false
        · have e1 : frbGo l r cl (c :: u) pos cnt = -1 := by
            simp only [frbGo]
            rw [if_neg hc1, if_neg hc2, if_pos hc3]
          rw [e1] at h0
          omega
        · have hz : ¬(cnt = 0) := by omega
          have e1 : frbGo l r cl (c :: u) pos cnt = frbGo l r cl u (pos + 1) cnt := by
            simp only [frbGo]
            rw [if_neg hc1, if_neg hc2, if_neg hc3, if_neg hz]
          rw [e1] at h0
          obtain ⟨w, rest, hu, hval, hbal, hpref, hnl⟩ := ih (pos + 1) cnt hcnt h0
          refine ⟨c :: w, rest, by rw [hu]; rfl, ?_, ?_, ?_, ?_⟩
          · rw [e1, hval]
            simp only [List.length_cons]
            push_cast
            ring
          · show cnt + ((if c = l then (1 : Int) else if c = r then -1 else 0) + bal l r w) = 1
            rw [if_neg hc1, if_neg hc2]
            omega
          · intro w1 w2 h12
            cases w1 with
            | nil =>
              show 1 ≤ cnt + bal l r []
              rw [show bal l r [] = 0 from rfl]
              omega
            | cons c1 w1' =>
              rw [List.cons_append] at h12
              injection h12 with hch hw
              have hp := hpref w1' w2 hw
              show 1 ≤ cnt + ((if c1 = l then (1 : Int) else if c1 = r then -1 else 0) + bal l r w1')
              rw [← hch, if_neg hc1, if_neg hc2]
              omega
          · intro hclf
            simp only [List.mem_cons, not_or]
            refine ⟨fun hh => hc3 ⟨by rw [hh], hclf⟩, hnl hclf⟩

/-- The backward scan passes over a block `A` in which the (right-minus-left)
depth stays positive and no blocked newline occurs, decrementing the
position by `A.length` and adjusting the counter by `bal r l A`. -/
lemma flbGo_append (l r : Char) (cl : Bool) :
    ∀ (A B : Str) (pos : Nat) (cnt : Int),
      A.length ≤ pos →
      (∀ A1 A2, A = A1 ++ A2 → A1 ≠ [] → 1 ≤ cnt + bal r l A1) →
      (cl = false → '\n' ∉ A) →
      flbGo l r cl (A ++ B) pos cnt = flbGo l r cl B (pos - A.length) (cnt + bal r l A) := by
  intro A
  induction A with
  | nil =>
    intro B pos cnt _ _ _
    show flbGo l r cl B pos cnt = flbGo l r cl B (pos - 0) (cnt + bal r l [])
    rw [show bal r l [] = 0 from rfl]
    norm_num
  | cons c A' ih =>
    intro B pos cnt hA hpref hnl
    have h1c : 1 ≤ cnt + bal r l [c] := hpref [c] A' rfl (by simp)
    have hblc : bal r l [c] = (if c = r then (1 : Int) else if c = l then -1 else 0) := by
      show (if c = r then (1 : Int) else if c = l then -1 else 0) + 0 = _
      ring
    have hlen : (c :: A').length = A'.length + 1 := rfl
    have hA' : A'.length ≤ pos - 1 := by omega
    have hpref' : ∀ δ : Int, bal r l [c] = δ →
        ∀ A1 A2, A' = A1 ++ A2 → A1 ≠ [] → 1 ≤ (cnt + δ) + bal r l A1 := by
      intro δ hδ A1 A2 h12 hne
      have := hpref (c :: A1) A2 (by rw [h12]; rfl) (by simp)
      have hb : bal r l (c :: A1) = bal r l [c] + bal r l A1 := by
        have := bal_append r l [c] A1
        simpa using this
      omega
    have hnl' : cl = false → '\n' ∉ A' := by
      intro hclf
      have := hnl hclf
      simp only [List.mem_cons, not_or] at this
      exact this.2
    by_cases hc2 : c = r
    · have hδ : bal r l [c] = 1 := by rw [hblc, if_pos hc2]
      have hne : ¬(cnt + 1 = 0) := by omega
      have e1 : flbGo l r cl (c :: (A' ++ B)) pos cnt = flbGo l r cl (A' ++ B) (pos - 1) (cnt + 1) := by
        simp only [flbGo]
        rw [if_pos hc2, if_neg hne]
      show flbGo l r cl (c :: (A' ++ B)) pos cnt = _
      rw [e1, ih B (pos - 1) (cnt + 1) hA' (by simpa [hδ] using hpref' 1 hδ) hnl']
      have e2 : pos - 1 - A'.length = pos - (c :: A').length := by omega
      have e3 : cnt + 1 + bal r l A' = cnt + bal r l (c :: A') := by
        have hb : bal r l (c :: A') = bal r l [c] + bal r l A' := by
          have := bal_append r l [c] A'
          simpa using this
        omega
      rw [e2, e3]
    · by_cases hc1 : c = l
      · have hδ : bal r l [c] = -1 := by
          rw [hblc, if_neg hc2, if_pos hc1]
        have hne : ¬(cnt - 1 = 0) := by omega
        have e1 : flbGo l r cl (c :: (A' ++ B)) pos cnt = flbGo l r cl (A' ++ B) (pos - 1) (cnt - 1) := by
          simp only [flbGo]
          rw [if_neg hc2, if_pos hc1, if_neg hne]
        show flbGo l r cl (c :: (A' ++ B)) pos cnt = _
        rw [e1, ih B (pos - 1) (cnt - 1) hA' (by simpa [hδ] using hpref' (-1) hδ) hnl']
        have e2 : pos - 1 - A'.length = pos - (c :: A').length := by omega
        have e3 : cnt - 1 + bal r l A' = cnt + bal r l (c :: A') := by
          have hb : bal r l (c :: A') = bal r l [c] + bal r l A' := by
            have := bal_append r l [c] A'
            simpa using this
          omega
        rw [e2, e3]
      · have hδ : bal r l [c] = 0 := by
          rw [hblc, if_neg hc2, if_neg hc1]
        have hc3 : ¬(c = '\n' ∧ cl = false) := by
          rintro ⟨hcn, hclf⟩
          exact (hnl hclf) (by rw [hcn]; exact List.mem_cons_self _ _)
        have hne : ¬(cnt = 0) := by omega
        have e1 : flbGo l r cl (c :: (A' ++ B)) pos cnt = flbGo l r cl (A' ++ B) (pos - 1) cnt := by
          simp only [flbGo]
          rw [if_neg hc2, if_neg hc1, if_neg hc3, if_neg hne]
        show flbGo l r cl (c :: (A' ++ B)) pos cnt = _
        rw [e1, ih B (pos - 1) cnt hA' (by simpa [hδ] using hpref' 0 hδ) hnl']
        have e2 : pos - 1 - A'.length = pos - (c :: A').length := by omega
        have e3 : cnt + bal r l A' = cnt + bal r l (c :: A') := by
          have hb : bal r l (c :: A') = bal r l [c] + bal r l A' := by
            have := bal_append r l [c] A'
            simpa using this
          omega
        rw [e2, e3]

lemma get?_append_len (w : Str) (x : Char) (rest : Str) :
    (w ++ x :: rest).get? w.length = some x := by
  induction w with
  | nil => rfl
  | cons a w ih => exact ih

lemma get?_some_lt (t : Str) (i : Nat) (c : Char) (h : t.get? i = some c) : i < t.length := by
  by_contra hc
  rw [List.get?_eq_none.mpr (by omega)] at h
  exact Option.noConfusion h

lemma take_succ_of_get? (t : Str) (i : Nat) (c : Char) (h : t.get? i = some c) :
    t.take (i + 1) = t.take i ++ [c] := by
  induction t generalizing i with
  | nil => exact Option.noConfusion h
  | cons a t ih =>
    cases i with
    | zero =>
      have : a = c := Option.some.inj h
      rw [this]
      rfl
    | succ i =>
      have := ih i h
      show a :: t.take (i + 1) = a :: t.take i ++ [c]
      rw [this]
      rfl

/-- Round-trip engine: a successful forward scan from the left bracket at
`i` determines the closing position `q`; the backward scan started just
past it lands back on `i`. -/
lemma roundtrip_aux (l r : Char) (hlr : l ≠ r) (hl : l ≠ '\n') (hr : r ≠ '\n') (cl : Bool)
    (t : Str) (i : Nat) (q : Int)
    (li : t.get? i = some l)
    (hq : frbGo l r cl (t.drop (i + 1)) (i + 1) 1 = q) (h0 : 0 ≤ q) :
    t.get? (q.toNat - 1) = some r
    ∧ flbGo l r cl ((t.take (q.toNat - 1)).reverse) (q.toNat - 2) 1 = (i : Int)
    ∧ i + 2 ≤ q.toNat ∧ q.toNat ≤ t.length := by
  have h0' : 0 ≤ frbGo l r cl (t.drop (i + 1)) (i + 1) 1 := by rw [hq]; exact h0
  obtain ⟨w, rest, hu, hval, hbal, hpref, hnl⟩ :=
    frbGo_ok l r hl hr cl (t.drop (i + 1)) (i + 1) 1 (le_refl 1) h0'
  have hbw : bal l r w = 0 := by omega
  have hprefw : ∀ w1 w2, w = w1 ++ w2 → 0 ≤ bal l r w1 := by
    intro w1 w2 h
    have := hpref w1 w2 h
    omega
  have hi : i < t.length := get?_some_lt t i l li
  have hlen_drop : (t.drop (i + 1)).length = t.length - (i + 1) := List.length_drop _ _
  have hlen_u : (t.drop (i + 1)).length = w.length + 1 + rest.length := by
    rw [hu]
    simp
    omega
  have hqval : q = ((i + 1 : Nat) : Int) + w.length + 1 := by rw [← hq, hval]
  have hqn : q.toNat = i + w.length + 2 := by omega
  have e1 : q.toNat - 1 = i + 1 + w.length := by omega
  have e2 : q.toNat - 2 = i + w.length := by omega
  have hgetp : t.get? (i + 1 + w.length) = some r := by
    have hdg : (t.drop (i + 1)).get? w.length = t.get? (i + 1 + w.length) := by
      rw [List.get?_eq_getElem?, List.get?_eq_getElem?, List.getElem?_drop]
    rw [← hdg, hu]
    exact get?_append_len w r rest
  have htake1 : t.take (i + 1) = t.take i ++ [l] := take_succ_of_get? t i l li
  have hlen_take : (t.take (i + 1)).length = i + 1 := by
    rw [List.length_take]
    omega
  have htakep : t.take (i + 1 + w.length) = t.take (i + 1) ++ w := by
    rw [List.take_add]
    congr 1
    rw [hu]
    exact List.take_left w (r :: rest)
  have hrev : (t.take (i + 1 + w.length)).reverse = w.reverse ++ (l :: (t.take i).reverse) := by
    rw [htakep, htake1, List.reverse_append, List.reverse_append]
    simp
  have hskip := flbGo_append l r cl w.reverse (l :: (t.take i).reverse) (i + w.length) 1
    (by rw [List.length_reverse]; omega)
    (by
      intro A1 A2 hA12 _
      have hw : w = A2.reverse ++ A1.reverse := by
        have hrr := congrArg List.reverse hA12
        rw [List.reverse_reverse, List.reverse_append] at hrr
        exact hrr
      have h2 : 0 ≤ bal l r A2.reverse := hprefw _ _ hw
      have hsum : bal l r A2.reverse + bal l r A1.reverse = 0 := by
        rw [← bal_append, ← hw, hbw]
      have h3 : bal l r A1 ≤ 0 := by
        rw [← bal_reverse]
        omega
      have h4 : bal r l A1 = -bal l r A1 := bal_swap l r hlr A1
      omega)
    (by
      intro hclf
      rw [List.mem_reverse]
      exact hnl hclf)
  have hbalrev : bal r l w.reverse = 0 := by
    rw [bal_swap l r hlr, bal_reverse, hbw]
    ring
  have hfin : flbGo l r cl (l :: (t.take i).reverse) i 1 = (i : Int) := by
    simp only [flbGo]
    rw [if_neg (fun hh => hlr hh)]
    norm_num
  refine ⟨?_, ?_, by omega, by omega⟩
  · rw [e1]
    exact hgetp
  · rw [e1, e2, hrev, hskip, hbalrev, List.length_reverse]
    have e3 : i + w.length - w.length = i := by omega
    rw [e3]
    show flbGo l r cl (l :: (t.take i).reverse) i (1 + 0) = (i : Int)
    rw [show (1 : Int) + 0 = 1 from rfl]
    exact hfin


/-- The forward bracket scan only ever returns -1 or a position plus one:
a negative result is exactly the -1 sentinel. -/
lemma frbGo_neg (l r : Char) (cl : Bool) :
    ∀ (u : Str) (pos : Nat) (cnt : Int), frbGo l r cl u pos cnt < 0 →
      frbGo l r cl u pos cnt = -1 := by
  intro u
  induction u with
  | nil => intro pos cnt _; rfl
  | cons c u ih =>
    intro pos cnt hneg
    by_cases hc1 : c = l
    · by_cases hz : cnt + 1 = 0
      · have e1 : frbGo l r cl (c :: u) pos cnt = (pos : Int) + 1 := by
          simp only [frbGo]
          rw [if_pos hc1, if_pos hz]
        rw [e1] at hneg
        omega
      · have e1 : frbGo l r cl (c :: u) pos cnt = frbGo l r cl u (pos + 1) (cnt + 1) := by
          simp only [frbGo]
          rw [if_pos hc1, if_neg hz]
        rw [e1] at hneg ⊢
        exact ih (pos + 1) (cnt + 1) hneg
    · by_cases hc2 : c = r
      · by_cases hz : cnt - 1 = 0
        · have e1 : frbGo l r cl (c :: u) pos cnt = (pos : Int) + 1 := by
            simp only [frbGo]
            rw [if_neg hc1, if_pos hc2, if_pos hz]
          rw [e1] at hneg
          omega
        · have e1 : frbGo l r cl (c :: u) pos cnt = frbGo l r cl u (pos + 1) (cnt - 1) := by
            simp only [frbGo]
            rw [if_neg hc1, if_pos hc2, if_neg hz]
          rw [e1] at hneg ⊢
          exact ih (pos + 1) (cnt - 1) hneg
      · by_cases hc3 : c = '\n' ∧ cl = false
        · simp only [frbGo]
          rw [if_neg hc1, if_neg hc2, if_pos hc3]
        · by_cases hz : cnt = 0
          · have e1 : frbGo l r cl (c :: u) pos cnt = (pos : Int) + 1 := by
              simp only [frbGo]
              rw [if_neg hc1, if_neg hc2, if_neg hc3, if_pos hz]
            rw [e1] at hneg
            omega
          · have e1 : frbGo l r cl (c :: u) pos cnt = frbGo l r cl u (pos + 1) cnt := by
              simp only [frbGo]
              rw [if_neg hc1, if_neg hc2, if_neg hc3, if_neg hz]
            rw [e1] at hneg ⊢
            exact ih (pos + 1) cnt hneg

/-- Completeness of the forward bracket scan: if the scanned text contains
a properly balanced close (depth stays positive up to a closing `r`, with
no blocked newline before it), the scan does not return the sentinel. -/
lemma frbGo_complete (l r : Char) (hlr : l ≠ r) (cl : Bool) :
    ∀ (u : Str) (pos : Nat) (cnt : Int), 1 ≤ cnt →
    (∃ w rest, u = w ++ r :: rest
      ∧ cnt + bal l r w = 1
      ∧ (∀ w1 w2, w = w1 ++ w2 → 1 ≤ cnt + bal l r w1)
      ∧ (cl = false → '\n' ∉ w)) →
    0 ≤ frbGo l r cl u pos cnt := by
  intro u
  induction u with
  | nil =>
    intro pos cnt _ hex
    obtain ⟨w, rest, hu, _, _, _⟩ := hex
    exact absurd hu (by simp)
  | cons c u ih =>
    intro pos cnt hcnt hex
    obtain ⟨w, rest, hu, hbal, hpref, hnl⟩ := hex
    cases w with
    | nil =>
      have hc : c = r ∧ u = rest := by
        rw [List.nil_append] at hu
        exact ⟨(List.cons.inj hu).1, (List.cons.inj hu).2⟩
      have hcnt1 : cnt = 1 := by
        have : bal l r [] = 0 := rfl
        omega
      have hc2 : c = r := hc.1
      have hc1 : ¬(c = l) := fun hh => hlr (by rw [← hh, hc2])
      have e1 : frbGo l r cl (c :: u) pos cnt = (pos : Int) + 1 := by
        simp only [frbGo]
        rw [if_neg hc1, if_pos hc2, if_pos (by omega : cnt - 1 = 0)]
      rw [e1]
      omega
    | cons c0 w' =>
      have hc0 : c0 = c ∧ u = w' ++ r :: rest := by
        rw [List.cons_append] at hu
        exact ⟨(List.cons.inj hu).1.symm, (List.cons.inj hu).2⟩
      obtain ⟨hc0e, hu'⟩ := hc0
      have hbal_cons : bal l r (c0 :: w')
          = (if c0 = l then (1 : Int) else if c0 = r then -1 else 0) + bal l r w' := rfl
      have hpref' : ∀ δ : Int,
          (if c0 = l then (1 : Int) else if c0 = r then -1 else 0) = δ →
          ∀ w1 w2, w' = w1 ++ w2 → 1 ≤ (cnt + δ) + bal l r w1 := by
        intro δ hδ w1 w2 h12
        have := hpref (c0 :: w1) w2 (by rw [h12]; rfl)
        have hb : bal l r (c0 :: w1)
            = (if c0 = l then (1 : Int) else if c0 = r then -1 else 0) + bal l r w1 := rfl
        omega
      have hnl' : cl = false → '\n' ∉ w' := by
        intro hclf
        have := hnl hclf
        simp only [List.mem_cons, not_or] at this
        exact this.2
      by_cases hc1 : c = l
      · have hδ : (if c0 = l then (1 : Int) else if c0 = r then -1 else 0) = 1 := by
          rw [if_pos (by rw [hc0e, hc1])]
        have hz : ¬(cnt + 1 = 0) := by omega
        have e1 : frbGo l r cl (c :: u) pos cnt = frbGo l r cl u (pos + 1) (cnt + 1) := by
          simp only [frbGo]
          rw [if_pos hc1, if_neg hz]
        rw [e1]
        exact ih (pos + 1) (cnt + 1) (by omega)
          ⟨w', rest, hu', by omega, hpref' 1 hδ, hnl'⟩
      · by_cases hc2 : c = r
        · have hδ : (if c0 = l then (1 : Int) else if c0 = r then -1 else 0) = -1 := by
            rw [if_neg (by rw [hc0e]; exact hc1), if_pos (by rw [hc0e, hc2])]
          by_cases hz : cnt - 1 = 0
          · have e1 : frbGo l r cl (c :: u) pos cnt = (pos : Int) + 1 := by
              simp only [frbGo]
              rw [if_neg hc1, if_pos hc2, if_pos hz]
            rw [e1]
            omega
          · have e1 : frbGo l r cl (c :: u) pos cnt = frbGo l r cl u (pos + 1) (cnt - 1) := by
              simp only [frbGo]
              rw [if_neg hc1, if_pos hc2, if_neg hz]
            have hge : 1 ≤ cnt - 1 := by
              have := hpref [c0] w' rfl
              have hb : bal l r [c0] = (if c0 = l then (1 : Int) else if c0 = r then -1 else 0) := by
                show (if c0 = l then (1 : Int) else if c0 = r then -1 else 0) + 0 = _
                ring
              omega
            rw [e1]
            exact ih (pos + 1) (cnt - 1) hge
              ⟨w', rest, hu', by omega, hpref' (-1) hδ, hnl'⟩
        · have hδ : (if c0 = l then (1 : Int) else if c0 = r then -1 else 0) = 0 := by
            rw [if_neg (by rw [hc0e]; exact hc1), if_neg (by rw [hc0e]; exact hc2)]
          have hc3 : ¬(c = '\n' ∧ cl = false) := by
            rintro ⟨hcn, hclf⟩
            exact (hnl hclf) (by rw [← hcn, ← hc0e]; exact List.mem_cons_self _ _)
          have hz : ¬(cnt = 0) := by omega
          have e1 : frbGo l r cl (c :: u) pos cnt = frbGo l r cl u (pos + 1) cnt := by
            simp only [frbGo]
            rw [if_neg hc1, if_neg hc2, if_neg hc3, if_neg hz]
          rw [e1]
          exact ih (pos + 1) cnt hcnt ⟨w', rest, hu', by omega, by simpa using hpref' 0 hδ, hnl'⟩

/-- `pairRight` only succeeds on the three left brackets, and then the
pair is none of the degenerate combinations. -/
lemma pairRight_facts (lc rc : Char) (h : pairRight lc = some rc) :
    lc ≠ rc ∧ lc ≠ '\n' ∧ rc ≠ '\n' := by
  unfold pairRight at h
  by_cases a1 : lc = '('
  · rw [if_pos a1] at h
    have := Option.some.inj h
    rw [a1, ← this]
    exact ⟨by decide, by decide, by decide⟩
  · rw [if_neg a1] at h
    by_cases a2 : lc = '['
    · rw [if_pos a2] at h
      have := Option.some.inj h
      rw [a2, ← this]
      exact ⟨by decide, by decide, by decide⟩
    · rw [if_neg a2] at h
      by_cases a3 : lc = '{'
      · rw [if_pos a3] at h
        have := Option.some.inj h
        rw [a3, ← this]
        exact ⟨by decide, by decide, by decide⟩
      · rw [if_neg a3] at h
        exact Option.noConfusion h

/-- Unfolding of the `find_right_bracket` wrapper at a genuine left
bracket: the result is the forward scan for the matching pair. -/
lemma frb_unfold (t : Str) (s : Nat) (cl : Bool) (lc rc : Char)
    (hts : t.get? s = some lc) (hpair : pairRight lc = some rc) :
    find_right_bracket t s cl = .ok (frbGo lc rc cl (t.drop (s + 1)) (s + 1) 1) := by
  unfold pairRight at hpair
  unfold find_right_bracket
  rw [hts]
  by_cases a1 : lc = '('
  · rw [if_pos a1] at hpair
    rw [a1, ← Option.some.inj hpair]
    rfl
  · rw [if_neg a1] at hpair
    by_cases a2 : lc = '['
    · rw [if_pos a2] at hpair
      rw [a2, ← Option.some.inj hpair]
      rfl
    · rw [if_neg a2] at hpair
      by_cases a3 : lc = '{'
      · rw [if_pos a3] at hpair
        rw [a3, ← Option.some.inj hpair]
        rfl
      · rw [if_neg a3] at hpair
        exact Option.noConfusion hpair

/-- Claim C8: for every text `t`, index `i` with `t[i]` a left bracket and
every crossline mode, if `find_right_bracket(t, i)` succeeds (returns a
non-negative index `q` rather than the -1 sentinel or an exception), then
`find_left_bracket(t, q)` recovers exactly `i`.  The "no blocked newline"
proviso of the claim is automatic: a successful forward scan with
`crossline` false never crosses a newline, so the backward scan cannot hit
one either. -/
theorem c8_bracket_roundtrip (t : Str) (i : Nat) (cl : Bool) (q : Int)
    (h1 : find_right_bracket t i cl = .ok q) (h2 : 0 ≤ q) :
    find_left_bracket t q.toNat cl = .ok (i : Int) := by
  unfold find_right_bracket at h1
  split at h1
  · exact absurd h1 (by simp)
  · rename_i c hti
    split_ifs at h1 with hc1 hc2 hc3
    · obtain ⟨hget, hflb, hge, hle⟩ :=
        roundtrip_aux '(' ')' (by decide) (by decide) (by decide) cl t i q
          (by rw [hti, hc1]) (Except.ok.inj h1) h2
      have hpy : pyIndex t ((q.toNat : Int) - 1) = t.get? (q.toNat - 1) := by
        unfold pyIndex
        rw [if_pos (by omega : (0 : Int) ≤ (q.toNat : Int) - 1)]
        congr 1
        omega
      have hflbeq : find_left_bracket t q.toNat cl
          = .ok (flbGo '(' ')' cl ((t.take (q.toNat - 1)).reverse) (q.toNat - 2) 1) := by
        unfold find_left_bracket
        rw [hpy, hget]
        try rfl
      rw [hflbeq]
      exact congrArg Except.ok hflb
    · obtain ⟨hget, hflb, hge, hle⟩ :=
        roundtrip_aux '[' ']' (by decide) (by decide) (by decide) cl t i q
          (by rw [hti, hc2]) (Except.ok.inj h1) h2
      have hpy : pyIndex t ((q.toNat : Int) - 1) = t.get? (q.toNat - 1) := by
        unfold pyIndex
        rw [if_pos (by omega : (0 : Int) ≤ (q.toNat : Int) - 1)]
        congr 1
        omega
      have hflbeq : find_left_bracket t q.toNat cl
          = .ok (flbGo '[' ']' cl ((t.take (q.toNat - 1)).reverse) (q.toNat - 2) 1) := by
        unfold find_left_bracket
        rw [hpy, hget]
        try rfl
      rw [hflbeq]
      exact congrArg Except.ok hflb
    · obtain ⟨hget, hflb, hge, hle⟩ :=
        roundtrip_aux '{' '}' (by decide) (by decide) (by decide) cl t i q
          (by rw [hti, hc3]) (Except.ok.inj h1) h2
      have hpy : pyIndex t ((q.toNat : Int) - 1) = t.get? (q.toNat - 1) := by
        unfold pyIndex
        rw [if_pos (by omega : (0 : Int) ≤ (q.toNat : Int) - 1)]
        congr 1
        omega
      have hflbeq : find_left_bracket t q.toNat cl
          = .ok (flbGo '{' '}' cl ((t.take (q.toNat - 1)).reverse) (q.toNat - 2) 1) := by
        unfold find_left_bracket
        rw [hpy, hget]
        try rfl
      rw [hflbeq]
      exact congrArg Except.ok hflb


/-- Claim C8, witness: on `"(a(b)c)"` the forward scan from index 0 returns
7, and the backward scan from there recovers index 0. -/
theorem c8_bracket_roundtrip_witness :
    find_left_bracket ("(a(b)c)".toList) ((7 : Int).toNat) false = .ok ((0 : Nat) : Int) :=
  c8_bracket_roundtrip ("(a(b)c)".toList) 0 false 7 (by decide) (by decide)

/-- Claim C9: `find_right_bracket` raises ValueError exactly when the
character at a valid start index is not one of `(`, `[`, `{`; a successful
non-negative result is the index one past a right bracket of the same type
as the opening one; and on the concrete inputs of the claim it returns 7
for `"(a(b)c)"` at 0 and the sentinel -1 for `"(a(b"` at 0. -/
theorem c9_find_right_bracket_contract :
    (∀ (t : Str) (s : Nat) (cl : Bool), s < t.length →
        (find_right_bracket t s cl = .error .valueError ↔
          ¬(t.get? s = some '(' ∨ t.get? s = some '[' ∨ t.get? s = some '{')))
    ∧ (∀ (t : Str) (s : Nat) (cl : Bool) (q : Int),
        find_right_bracket t s cl = .ok q → 0 ≤ q →
        ∃ lc rc, t.get? s = some lc ∧ pairRight lc = some rc
          ∧ s + 2 ≤ q.toNat ∧ q.toNat ≤ t.length ∧ t.get? (q.toNat - 1) = some rc)
    ∧ (∀ (t : Str) (s : Nat) (cl : Bool) (lc rc : Char),
        t.get? s = some lc → pairRight lc = some rc →
        (find_right_bracket t s cl = .ok (-1) ↔
          ¬∃ w rest, t.drop (s + 1) = w ++ rc :: rest
            ∧ bal lc rc w = 0
            ∧ (∀ w1 w2, w = w1 ++ w2 → 0 ≤ bal lc rc w1)
            ∧ (cl = false → '\n' ∉ w)))
    ∧ find_right_bracket ("(a(b)c)".toList) 0 false = .ok 7
    ∧ find_right_bracket ("(a(b".toList) 0 false = .ok (-1) := by
  refine ⟨?_, ?_, ?_, by decide, by decide⟩
  · intro t s cl hs
    rcases hts : t.get? s with _ | c
    · exact absurd (List.get?_eq_none.mp hts) (by omega)
    · have hred : find_right_bracket t s cl =
          (if c = '(' then .ok (frbGo '(' ')' cl (t.drop (s + 1)) (s + 1) 1)
            else if c = '[' then .ok (frbGo '[' ']' cl (t.drop (s + 1)) (s + 1) 1)
            else if c = '{' then .ok (frbGo '{' '}' cl (t.drop (s + 1)) (s + 1) 1)
            else .error .valueError) := by
        unfold find_right_bracket
        rw [hts]
      rw [hred]
      by_cases h1 : c = '('
      · refine iff_of_false (by rw [if_pos h1]; simp) ?_
        intro hn
        exact hn (Or.inl (by rw [h1]))
      · rw [if_neg h1]
        by_cases h2 : c = '['
        · refine iff_of_false (by rw [if_pos h2]; simp) ?_
          intro hn
          exact hn (Or.inr (Or.inl (by rw [h2])))
        · rw [if_neg h2]
          by_cases h3 : c = '{'
          · refine iff_of_false (by rw [if_pos h3]; simp) ?_
            intro hn
            exact hn (Or.inr (Or.inr (by rw [h3])))
          · refine iff_of_true (by rw [if_neg h3]) ?_
            intro hn
            rcases hn with hh | hh | hh
            · exact h1 (Option.some.inj hh)
            · exact h2 (Option.some.inj hh)
            · exact h3 (Option.some.inj hh)
  · intro t s cl q hok h0
    unfold find_right_bracket at hok
    split at hok
    · exact absurd hok (by simp)
    · rename_i c hts
      split_ifs at hok with hc1 hc2 hc3
      · obtain ⟨hget, _, hge, hle⟩ :=
          roundtrip_aux '(' ')' (by decide) (by decide) (by decide) cl t s q
            (by rw [hts, hc1]) (Except.ok.inj hok) h0
        exact ⟨'(', ')', by rw [hts, hc1], by decide, hge, hle, hget⟩
      · obtain ⟨hget, _, hge, hle⟩ :=
          roundtrip_aux '[' ']' (by decide) (by decide) (by decide) cl t s q
            (by rw [hts, hc2]) (Except.ok.inj hok) h0
        exact ⟨'[', ']', by rw [hts, hc2], by decide, hge, hle, hget⟩
      · obtain ⟨hget, _, hge, hle⟩ :=
          roundtrip_aux '{' '}' (by decide) (by decide) (by decide) cl t s q
            (by rw [hts, hc3]) (Except.ok.inj hok) h0
        exact ⟨'{', '}', by rw [hts, hc3], by decide, hge, hle, hget⟩
  · intro t s cl lc rc hts hpair
    obtain ⟨hlr, hl, hr⟩ := pairRight_facts lc rc hpair
    rw [frb_unfold t s cl lc rc hts hpair]
    constructor
    · intro hok hex
      obtain ⟨w, rest, hw, hb, hp, hn⟩ := hex
      have h0 : 0 ≤ frbGo lc rc cl (t.drop (s + 1)) (s + 1) 1 :=
        frbGo_complete lc rc hlr cl (t.drop (s + 1)) (s + 1) 1 (by omega)
          ⟨w, rest, hw, by omega,
            fun w1 w2 h => by have := hp w1 w2 h; omega, hn⟩
      rw [Except.ok.inj hok] at h0
      omega
    · intro hnex
      by_contra hne
      have hne' : frbGo lc rc cl (t.drop (s + 1)) (s + 1) 1 ≠ -1 :=
        fun hh => hne (by rw [hh])
      have h0 : 0 ≤ frbGo lc rc cl (t.drop (s + 1)) (s + 1) 1 := by
        rcases lt_or_ge (frbGo lc rc cl (t.drop (s + 1)) (s + 1) 1) 0 with hlt | hge
        · exact absurd (frbGo_neg lc rc cl _ _ _ hlt) hne'
        · exact hge
      obtain ⟨w, rest, hu, _, hbal, hpref, hnl⟩ :=
        frbGo_ok lc rc hl hr cl (t.drop (s + 1)) (s + 1) 1 (le_refl 1) h0
      exact hnex ⟨w, rest, hu, by omega,
        fun w1 w2 h => by have := hpref w1 w2 h; omega, hnl⟩

/-- Claim C9, witness: the error-iff at a valid non-bracket start, and the
success characterization at `"(a(b)c)"`, index 0, result 7. -/
theorem c9_find_right_bracket_contract_witness :
    (find_right_bracket ("x".toList) 0 false = .error .valueError ↔
      ¬(("x".toList).get? 0 = some '(' ∨ ("x".toList).get? 0 = some '['
        ∨ ("x".toList).get? 0 = some '{'))
    ∧ (∃ lc rc, ("(a(b)c)".toList).get? 0 = some lc ∧ pairRight lc = some rc
        ∧ 0 + 2 ≤ (7 : Int).toNat ∧ (7 : Int).toNat ≤ ("(a(b)c)".toList).length
        ∧ ("(a(b)c)".toList).get? ((7 : Int).toNat - 1) = some rc)
    ∧ (find_right_bracket ("(a(b".toList) 0 false = .ok (-1) ↔
        ¬∃ w rest, ("(a(b".toList).drop (0 + 1) = w ++ ')' :: rest
          ∧ bal '(' ')' w = 0
          ∧ (∀ w1 w2, w = w1 ++ w2 → 0 ≤ bal '(' ')' w1)
          ∧ (false = false → '\n' ∉ w)) :=
  ⟨c9_find_right_bracket_contract.1 ("x".toList) 0 false (by decide),
   c9_find_right_bracket_contract.2.1 ("(a(b)c)".toList) 0 false 7 (by decide) (by decide),
   c9_find_right_bracket_contract.2.2.1 ("(a(b".toList) 0 false '(' ')' (by decide) (by decide)⟩

/-- Claim C1: with ignore `"()[]{}"` and marker `"{}"`, the smart pattern
`"a{}b"` matches (both anchored `smart_match` and `smart_search`) the
subjects `"ab"`, `"a(c)b"` and `"a(d(c)e)b"`, and does not match `"a(b)"`;
with ignore `"()"` only, it matches `"a(c)b"` but not `"a[c]b"`. -/
theorem c1_bracket_matcher_examples :
    smart_match (.smart pat_ab) ("ab".toList) 0 = .ok (some ⟨(0, 2), ("ab".toList), [], []⟩)
    ∧ smart_match (.smart pat_ab) ("a(c)b".toList) 0
        = .ok (some ⟨(0, 5), ("a(c)b".toList), [], []⟩)
    ∧ smart_match (.smart pat_ab) ("a(d(c)e)b".toList) 0
        = .ok (some ⟨(0, 9), ("a(d(c)e)b".toList), [], []⟩)
    ∧ smart_search (.smart pat_ab) ("ab".toList) 0 = .ok (some ⟨(0, 2), ("ab".toList), [], []⟩)
    ∧ smart_search (.smart pat_ab) ("a(c)b".toList) 0
        = .ok (some ⟨(0, 5), ("a(c)b".toList), [], []⟩)
    ∧ smart_search (.smart pat_ab) ("a(d(c)e)b".toList) 0
        = .ok (some ⟨(0, 9), ("a(d(c)e)b".toList), [], []⟩)
    ∧ smart_match (.smart pat_ab) ("a(b)".toList) 0 = .ok none
    ∧ smart_search (.smart pat_ab) ("a(b)".toList) 0 = .ok none
    ∧ smart_match (.smart pat_ab_paren) ("a(c)b".toList) 0
        = .ok (some ⟨(0, 5), ("a(c)b".toList), [], []⟩)
    ∧ smart_match (.smart pat_ab_paren) ("a[c]b".toList) 0 = .ok none := by
  decide

/-- Claim C2 (code bug): `smart_fullmatch` hands `smart_match` the plain
*string* `"(?:" + pattern + ")\Z"`, so the call delegates to the engine's
anchored match of an end-anchored literal and all bracket-awareness is
lost: `"a{}b"` does NOT fullmatch `"a(c)b"` even though the bracket-aware
`smart_match` succeeds on the same input. -/
theorem c2_fullmatch_plain_delegation :
    smart_fullmatch (.smart pat_ab) ("a(c)b".toList) 0 = .ok none
    ∧ smart_match (.smart pat_ab) ("a(c)b".toList) 0
        = .ok (some ⟨(0, 5), ("a(c)b".toList), [], []⟩) := by
  decide

/-- Claim C3 (code bug): `smart_sub`/`smart_subn` behave as claimed for
`count < 0` (input unchanged) and `count = 0` (unlimited), but when a
positive `count` is exhausted the `break` fires before the subject is
advanced past the match, so the returned string re-appends the already
replaced prefix and match: with count 1, pattern `"a{}b"` on `"ab"` the
result is `"Xab"` instead of the claimed `"X"`. -/
theorem c3_sub_count_break :
    smart_sub (.smart pat_ab) (.lit ("X".toList)) ("ab".toList) 1 0 = .ok ("Xab".toList)
    ∧ smart_subn (.smart pat_ab) (.lit ("X".toList)) ("ab".toList) 1 0
        = .ok (("Xab".toList), 1)
    ∧ ("Xab".toList) ≠ ("X".toList)
    ∧ smart_sub (.smart pat_ab) (.lit ("X".toList)) ("ab ab".toList) 0 0 = .ok ("X X".toList)
    ∧ smart_sub (.smart pat_ab) (.lit ("X".toList)) ("ab".toList) (-1) 0 = .ok ("ab".toList)
    ∧ smart_subn (.smart pat_ab) (.lit ("X".toList)) ("ab".toList) (-1) 0
        = .ok (("ab".toList), 0) := by
  decide

/-- Claim C4 (code bug): for a `SmartPattern`, `core.smart_finditer`
returns Python `None` (its body has no smart branch), not an iterator, so
its yielded texts cannot equal `smart_findall`'s list, which on the same
input is `["ab"]`. -/
theorem c4_smart_finditer_stub :
    smart_finditer (.smart pat_ab) ("ab".toList) 0 = none
    ∧ smart_findall (.smart pat_ab) ("ab".toList) 0 = .ok [("ab".toList)] := by
  decide

/-- Claim C5 (code bug): `smart.search` and `smart.match` read
`pattern.ignore_mark`, an attribute `smart.SmartPattern.__init__` never
sets (it stores the marker under `mark`), so with the module's own pattern
class both raise AttributeError instead of returning a match or null. -/
theorem c5_smart_search_attribute_error :
    Smart.search spat_ab ("abc".toList) 0 = .error .attributeError
    ∧ Smart.match_ spat_ab ("abc".toList) 0 = .error .attributeError
    ∧ Smart.SmartPattern.getStrAttr spat_ab ("mark") = some ("\x7b\x7d".toList)
    ∧ Smart.SmartPattern.getStrAttr spat_ab ("ignore_mark") = none := by
  decide

/-- Claim C6 (code bug): `core.real_findall` constructs `SmartMatch` with
only two arguments (span, group) in both the linemode and absolute
branches, while `SmartMatch.__init__` requires four; any input with at
least one match therefore raises TypeError, and only a match-free input
returns a (empty) list. -/
theorem c6_real_findall_arity_error :
    real_findall (.plain (.lit ("a".toList))) ("ba".toList) 0 false = .error .typeError
    ∧ real_findall (.plain (.lit ("a".toList))) ("ba".toList) 0 true = .error .typeError
    ∧ real_findall (.plain (.lit ("a".toList))) ("zz".toList) 0 false = .ok [] := by
  decide

/-- Claim C7 (code bug): `lsplit` initialises `stored` to the unmatched
prefix `string[: searched.start()]` and then also appends
`stored + string[: searched.end()]`, double-counting that prefix: on
pattern `"b"` and subject `"abc"` it returns `["aab", "c"]`, whose
concatenation `"aabc"` is not the subject.  `rsplit` on the same input
round-trips correctly. -/
theorem c7_lsplit_concat_violation :
    lsplit (.plain (.lit ("b".toList))) ("abc".toList) 0 0 = .ok [("aab".toList), ("c".toList)]
    ∧ ([("aab".toList), ("c".toList)]).flatten ≠ ("abc".toList)
    ∧ rsplit (.plain (.lit ("b".toList))) ("abc".toList) 0 0
        = .ok [("a".toList), ("bc".toList)]
    ∧ ([("a".toList), ("bc".toList)]).flatten = ("abc".toList) := by
  decide

/-- Claim C10: `smart_search` on the empty subject returns null for every
SmartPattern whose text contains the marker (the scan loop's guard
`while string and ...` fails immediately), even though the anchored
`smart_match` can succeed on the empty subject — e.g. for the pattern
`"{}"` whose literal segments are all empty. -/
theorem c10_search_empty_vs_match :
    (∀ (sp : SmartPattern) (flags : Nat), pyIn sp.ignore_mark sp.pattern = true →
        smart_search (.smart sp) [] flags = .ok none)
    ∧ smart_match (.smart pat_mark) [] 0 = .ok (some ⟨(0, 0), [], [], []⟩) := by
  constructor
  · intro sp flags h
    simp [smart_search, searchGo, h]
  · decide

/-- Claim C10, witness: the pattern `"{}"` contains the marker, and search
on the empty subject returns null. -/
theorem c10_search_empty_vs_match_witness :
    smart_search (.smart pat_mark) [] 0 = .ok none :=
  c10_search_empty_vs_match.1 pat_mark 0 (by decide)
